import Mathlib

/-!
Verification of the `video_compiler.py` pipeline from the
`snap-one-second-videos` repository.

The script selects one source video per calendar day, extracts a short
normalized clip from each, validates the clips with a media probe, and
concatenates the survivors in chronological order.  All external-tool
effects (ffmpeg / ffprobe subprocesses, the file system) are modelled by
explicit oracle inputs; the Python control flow, string processing and
data-structure manipulation are embedded as executable Lean functions.

Conventions used throughout:
  * file names are `List Char` (so that the regular-expression matching of
    `parse_date_from_filename` can be reasoned about structurally);
  * a Python function that may let an exception escape returns a
    `PyResult`/`ParseOutcome`-style sum with an explicit error constructor;
  * floating point durations are modelled as rationals.
-/



/-- A calendar date as produced by `datetime.strptime(_, '%Y-%m-%d')`. -/
structure Date where
  year : Nat
  month : Nat
  day : Nat
deriving DecidableEq

/-- A file name, as a list of characters. -/
abbrev FileName := List Char

/-- Gregorian leap-year rule, as used by Python's `datetime`. -/
def isLeapYear (y : Nat) : Bool :=
  y % 4 == 0 && (y % 100 != 0 || y % 400 == 0)

/-- Number of days in a month, as used by Python's `datetime`. -/
def daysInMonth (y m : Nat) : Nat :=
  if m == 2 then (if isLeapYear y then 29 else 28)
  else if m == 4 || m == 6 || m == 9 || m == 11 then 30
  else 31

/-- Whether `datetime.strptime '%Y-%m-%d'` accepts year/month/day fields:
Python dates require `1 <= year <= 9999`, a month in `1..12` and a day that
exists in that month. -/
def validDate (y m d : Nat) : Bool :=
  decide (1 ≤ y) && decide (y ≤ 9999) && decide (1 ≤ m) && decide (m ≤ 12) &&
    decide (1 ≤ d) && decide (d ≤ daysInMonth y m)

/-- `endsWith pat cs` is true when `pat` is a suffix of `cs`. -/
def endsWith (pat cs : List Char) : Bool :=
  pat == cs.drop (cs.length - pat.length)

/-- Matching of the regex tail `.*\.mp4$` against the part of the name after
the `_`: Python's `.` does not cross a newline, and `$` accepts either the end
of the string or a single newline at the end of the string. -/
def tailMatches (cs : List Char) : Bool :=
  (endsWith ['.', 'm', 'p', '4'] cs && !((cs.take (cs.length - 4)).contains '\n'))
    || (endsWith ['.', 'm', 'p', '4', '\n'] cs && !((cs.take (cs.length - 5)).contains '\n'))

/-- Numeric value of an ASCII digit. -/
def digitVal (c : Char) : Nat := c.toNat - 48

/-- Two ASCII digits read as a number. -/
def toNum2 (a b : Char) : Nat := 10 * digitVal a + digitVal b

/-- Four ASCII digits read as a number. -/
def toNum4 (a b c d : Char) : Nat :=
  1000 * digitVal a + 100 * digitVal b + 10 * digitVal c + digitVal d

/-- `re.match(r'(\d{4}-\d{2}-\d{2})_.*\.mp4$', name)`: on success returns the
year/month/day digit groups of the captured `YYYY-MM-DD` prefix. -/
def re_match (cs : List Char) : Option (Nat × Nat × Nat) :=
  match cs with
  | y1 :: y2 :: y3 :: y4 :: s1 :: m1 :: m2 :: s2 :: d1 :: d2 :: u :: rest =>
    if y1.isDigit && y2.isDigit && y3.isDigit && y4.isDigit && s1 == '-' &&
        m1.isDigit && m2.isDigit && s2 == '-' && d1.isDigit && d2.isDigit &&
        u == '_' && tailMatches rest
    then some (toNum4 y1 y2 y3 y4, toNum2 m1 m2, toNum2 d1 d2)
    else none
  | _ => none

/-- Result of calling `parse_date_from_filename`: a date, `None`, or a
`ValueError` escaping from `datetime.strptime`. -/
inductive ParseOutcome where
  | date (d : Date)
  | noDate
  | valueError
deriving DecidableEq

/-- `parse_date_from_filename` (video_compiler.py, lines 17-22): match the
regex; on a match feed the captured group to `datetime.strptime`, which
produces a date for valid year/month/day fields and raises `ValueError`
otherwise (the function body does not catch it); on a failed match return
`None`. -/
def parse_date_from_filename (cs : FileName) : ParseOutcome :=
  match re_match cs with
  | some (y, m, d) =>
    if validDate y m d then ParseOutcome.date ⟨y, m, d⟩ else ParseOutcome.valueError
  | none => ParseOutcome.noDate

/-- Modelled from the spec's words (section 4.1): a name matching the pattern
`YYYY-MM-DD_<anything>.<video-extension>` carries the embedded calendar date;
any other name carries none.  Used only to state claims about the parser,
never as part of the code model. -/
def spec_pattern_date (cs : List Char) : Option Date :=
  match cs with
  | y1 :: y2 :: y3 :: y4 :: s1 :: m1 :: m2 :: s2 :: d1 :: d2 :: u :: rest =>
    if y1.isDigit && y2.isDigit && y3.isDigit && y4.isDigit && s1 == '-' &&
        m1.isDigit && m2.isDigit && s2 == '-' && d1.isDigit && d2.isDigit &&
        u == '_' && endsWith ['.', 'm', 'p', '4'] rest &&
        validDate (toNum4 y1 y2 y3 y4) (toNum2 m1 m2) (toNum2 d1 d2)
    then some ⟨toNum4 y1 y2 y3 y4, toNum2 m1 m2, toNum2 d1 d2⟩
    else none
  | _ => none

/-! ### Rendering dates back into file names -/

/-- ASCII digit character for `n < 10`. -/
def digitChar (n : Nat) : Char := Char.ofNat (48 + n)

/-- Four-digit zero-padded rendering (`%04d`-style for values below 10000). -/
def render4 (n : Nat) : List Char :=
  [digitChar (n / 1000 % 10), digitChar (n / 100 % 10), digitChar (n / 10 % 10),
    digitChar (n % 10)]

/-- Two-digit zero-padded rendering. -/
def render2 (n : Nat) : List Char :=
  [digitChar (n / 10 % 10), digitChar (n % 10)]

/-- The `YYYY-MM-DD` rendering of a date. -/
def renderDate (y m d : Nat) : List Char :=
  render4 y ++ '-' :: (render2 m ++ '-' :: render2 d)

/-! ### Grouping files by date (`group_by_date`, lines 29-38) -/

/-- One `grouped[date].append(video_file)` step on a `defaultdict(list)`
represented as an association list in key-insertion order. -/
def insertGroup (m : List (Date × List FileName)) (dt : Date) (f : FileName) :
    List (Date × List FileName) :=
  match m with
  | [] => [(dt, [f])]
  | (dt', fs) :: rest =>
    if dt' = dt then (dt', fs ++ [f]) :: rest else (dt', fs) :: insertGroup rest dt f

/-- The loop of `group_by_date`: each file's name is parsed; a parsed date
files the name into its bucket, `None` drops it, and a `ValueError` escaping
from the parser aborts the whole grouping (nothing in `group_by_date`
catches it). -/
def group_aux :
    List (Date × List FileName) → List FileName → Except Unit (List (Date × List FileName))
  | acc, [] => Except.ok acc
  | acc, f :: rest =>
    match parse_date_from_filename f with
    | ParseOutcome.date dt => group_aux (insertGroup acc dt f) rest
    | ParseOutcome.noDate => group_aux acc rest
    | ParseOutcome.valueError => Except.error ()

/-- `group_by_date` (lines 29-38): bucket the files by parsed date. -/
def group_by_date (files : List FileName) : Except Unit (List (Date × List FileName)) :=
  group_aux [] files

/-- Lookup of a date's bucket in the association list (a missing key reads as
the empty bucket); observer function for stating bucket properties. -/
def bucketOf : List (Date × List FileName) → Date → List FileName
  | [], _ => []
  | (k, fs) :: rest, dt => if k = dt then fs else bucketOf rest dt

/-! ### The corpus scanner (`get_video_files`, lines 24-27) -/

/-- Split a name at its last dot: `some (pre, suf)` with
`name = pre ++ '.' :: suf` when a dot exists, `none` otherwise. -/
def splitLastDot : List Char → Option (List Char × List Char)
  | [] => none
  | c :: rest =>
    match splitLastDot rest with
    | some (pre, suf) => some (c :: pre, suf)
    | none => if c = '.' then some ([], rest) else none

/-- `pathlib.PurePath.suffix`: the extension from the last dot to the end;
empty when there is no dot, when the only dot is the leading character, or
when the name ends in the dot. -/
def path_suffix (name : FileName) : FileName :=
  match splitLastDot name with
  | some (pre, suf) => if pre.isEmpty || suf.isEmpty then [] else '.' :: suf
  | none => []

/-- `get_video_files` (lines 24-27): keep exactly the directory entries whose
`Path.suffix.lower()` is `.mp4`. -/
def get_video_files (files : List FileName) : List FileName :=
  files.filter (fun f => (path_suffix f).map Char.toLower == ['.', 'm', 'p', '4'])

/-! ### Probe data and the clip validator (`validate_clip`, lines 67-109)

Float durations are modelled as rationals; the decimal literals of the
source are written with `mkRat` (1.4 = `mkRat 7 5`, 1.6 = `mkRat 8 5`,
0.5 = `mkRat 1 2`) so that all comparisons compute. -/

/-- Stream type as reported in ffprobe's `codec_type` field. -/
inductive CodecType where
  | video
  | audio
  | other
deriving DecidableEq

/-- One entry of the probe's stream list (`stream.get('codec_type')` may be
absent). -/
structure ProbeStream where
  codec_type : Option CodecType
deriving DecidableEq

/-- The `format.duration` field of the probe output: missing (no `format`
or no `duration` key), present but not parsable as a float, or a number. -/
inductive DurationField where
  | absent
  | malformed
  | value (q : Rat)
deriving DecidableEq

/-- Parsed ffprobe JSON output for `-show_streams -show_format`. -/
structure ProbeData where
  streams : List ProbeStream
  duration : DurationField
deriving DecidableEq

/-- Outcome of running the ffprobe subprocess on an extracted clip:
the subprocess raises `CalledProcessError` (non-zero exit), or it exits 0
with stdout that is not valid JSON, or the JSON parses to `ProbeData`. -/
inductive ProbeOutcome where
  | exitFailure
  | jsonError
  | parsed (data : ProbeData)
deriving DecidableEq

/-- Result of a Python call: a returned value, or an exception escaping to
the caller. -/
inductive PyResult (α : Type) where
  | ok (val : α)
  | exn
deriving DecidableEq

/-- The `has_video` flag computed by the stream loop (lines 84-88). -/
def hasVideoStream (data : ProbeData) : Bool :=
  data.streams.any fun s => s.codec_type == some CodecType.video

/-- The `has_audio` flag computed by the stream loop (lines 84-88). -/
def hasAudioStream (data : ProbeData) : Bool :=
  data.streams.any fun s => s.codec_type == some CodecType.audio

/-- `validate_clip` (lines 67-109).  The `import json` on line 76 sits
inside the `try` *after* the subprocess call, so when the subprocess raises
`CalledProcessError` the `except` tuple evaluates the still-unbound local
`json` and an `UnboundLocalError` escapes to the caller; every failure
after the import (bad JSON, bad float for the duration) is caught and
reported as `False`.  A malformed duration raises `ValueError` at the
`float(...)` call (line 92), caught, returning `False` before the stream
checks run. -/
def validate_clip (probe : ProbeOutcome) : PyResult Bool :=
  match probe with
  | ProbeOutcome.exitFailure => PyResult.exn
  | ProbeOutcome.jsonError => PyResult.ok false
  | ProbeOutcome.parsed data =>
    match data.duration with
    | DurationField.malformed => PyResult.ok false
    | dur =>
      if !hasVideoStream data then PyResult.ok false
      else if !hasAudioStream data then PyResult.ok false
      else
        match dur with
        | DurationField.value q =>
          if q < mkRat 1 2 then PyResult.ok false else PyResult.ok true
        | _ => PyResult.ok false

/-! ### Duration probing (`get_video_duration`, lines 50-65) -/

/-- Outcome of the ffprobe duration probe on a source file: any failure
(non-zero exit, bad JSON, missing `format`/`duration` key, bad float) is
caught by the handler on line 63 (whose `except` tuple mentions no `json`
name, so nothing escapes). -/
inductive SrcProbe where
  | failure
  | ok (q : Rat)
deriving DecidableEq

/-- `get_video_duration` (lines 50-65): the probed duration, with the
`10.0`-second fallback on probe failure. -/
def get_video_duration (p : SrcProbe) : Rat :=
  match p with
  | SrcProbe.failure => 10
  | SrcProbe.ok q => q

/-- Python's binary `min` (ties keep the first argument). -/
def pymin (a b : Rat) : Rat := if a ≤ b then a else b

/-! ### Clip extraction (`extract_clip`, lines 111-150) -/

/-- The time-window arguments `extract_clip` hands to ffmpeg
(`-ss start`, `-t duration`). -/
structure ExtractCmd where
  input : FileName
  output : FileName
  start : Rat
  duration : Rat
deriving DecidableEq

/-- `extract_clip` (line 111), argument preparation: the Python default
arguments `duration=1.6`, `start_time=0` are modelled as `Option` values,
`none` meaning the caller did not supply the argument. -/
def extract_clip (input_path output_path : FileName) (duration : Option Rat)
    (start_time : Option Rat) : ExtractCmd :=
  ⟨input_path, output_path, start_time.getD 0, duration.getD (mkRat 8 5)⟩

/-! ### Concatenation (`concatenate_videos`, lines 158-204) -/

/-- Outcome of the ffmpeg concatenation subprocess: success, a
`CalledProcessError` (non-zero exit), or some other escaping exception. -/
inductive ToolRun where
  | ok
  | calledProcessError
  | otherExn
deriving DecidableEq

/-- Observable result of one `concatenate_videos` call. -/
structure ConcatOutcome where
  result : PyResult Bool
  manifest_deleted : Bool
deriving DecidableEq

/-- `concatenate_videos` (lines 158-204): the manifest is created by
`NamedTemporaryFile(delete=False)` and written by `create_concat_file`
*before* the `try`, so an exception escaping from the manifest write leaves
the file behind; once inside the `try`, the `finally` on line 202 unlinks
the manifest on the success path, on the `CalledProcessError` path
(`return False`) and on any other escaping exception.  `write_ok` says
whether writing the manifest succeeded; `tool` is the subprocess outcome. -/
def concatenate_videos (write_ok : Bool) (tool : ToolRun) : ConcatOutcome :=
  if !write_ok then ⟨PyResult.exn, false⟩
  else
    match tool with
    | ToolRun.ok => ⟨PyResult.ok true, true⟩
    | ToolRun.calledProcessError => ⟨PyResult.ok false, true⟩
    | ToolRun.otherExn => ⟨PyResult.exn, true⟩

/-! ### Daily selection and date sorting (lines 40-48, 242) -/

/-- `select_one_per_day` (lines 40-48): one random choice per bucket, in
dict order.  `random.choice(videos)` is modelled by an oracle index reduced
mod the bucket size, so every choice the code could make is covered. -/
def select_one_per_day (choiceIdx : Date → Nat) :
    List (Date × List FileName) → List (Date × FileName)
  | [] => []
  | (dt, vs) :: rest =>
    match vs with
    | [] => select_one_per_day choiceIdx rest
    | v :: _ =>
      (dt, vs.getD (choiceIdx dt % vs.length) v) :: select_one_per_day choiceIdx rest

/-- `datetime` comparison: lexicographic on (year, month, day). -/
def dateLe (a b : Date) : Prop :=
  a.year < b.year ∨ (a.year = b.year ∧ (a.month < b.month ∨
    (a.month = b.month ∧ a.day ≤ b.day)))

/-- Strict `datetime` comparison: lexicographic on (year, month, day). -/
def dateLt (a b : Date) : Prop :=
  a.year < b.year ∨ (a.year = b.year ∧ (a.month < b.month ∨
    (a.month = b.month ∧ a.day < b.day)))

instance : DecidableRel dateLe := fun a b => by
  unfold dateLe
  infer_instance

instance : DecidableRel dateLt := fun a b => by
  unfold dateLt
  infer_instance

instance : IsTotal Date dateLe :=
  ⟨by
    intro a b
    unfold dateLe
    omega⟩

instance : IsTrans Date dateLe :=
  ⟨by
    intro a b c
    unfold dateLe
    omega⟩

/-- `sorted(selected_videos.keys())` (line 242). -/
def sortDates (dates : List Date) : List Date := List.insertionSort dateLe dates

/-! ### The pipeline driver (`main`, lines 206-287) -/

/-- Zero-padded `f"{i:04d}"`. -/
def pad4 (n : Nat) : List Char :=
  List.replicate (4 - (Nat.toDigits 10 n).length) '0' ++ Nat.toDigits 10 n

/-- `f"clip_{i:04d}_{date.strftime('%Y%m%d')}.mp4"` (line 253). -/
def clip_name (i : Nat) (dt : Date) : FileName :=
  ("clip_".toList) ++ pad4 i ++
    '_' :: (render4 dt.year ++ render2 dt.month ++ render2 dt.day) ++ (".mp4".toList)

/-- `clip_duration = 1.4` (line 210). -/
def clip_duration : Rat := mkRat 7 5

/-- External-world oracles for one run of `main`: the directory listing,
tool availability, the random choices, and the outcome of every subprocess
invocation, keyed by the observable arguments each call receives. -/
structure Env where
  files : List FileName
  tools_ok : Bool
  choiceIdx : Date → Nat
  src_probe : FileName → SrcProbe
  extract_result : ExtractCmd → Bool
  clip_probe : FileName → ProbeOutcome
  concat_write_ok : Bool
  concat_tool : ToolRun

/-- `selected_videos[date]` lookup. -/
def lookup_selected (selected : List (Date × FileName)) (dt : Date) : FileName :=
  match selected.find? (fun p => p.1 == dt) with
  | some p => p.2
  | none => []

/-- The extract-and-validate loop of `main` (lines 251-271), iterated over
the sorted dates with the `enumerate` counter `i`: the surviving
`(index, date)` clips, or an escaped exception (`validate_clip` can raise;
nothing in `main` catches it). -/
def run_loop_clips (env : Env) (selected : List (Date × FileName)) :
    Nat → List Date → Except Unit (List (Nat × Date))
  | _, [] => Except.ok []
  | i, dt :: rest =>
    let video := lookup_selected selected dt
    let cmd := extract_clip video (clip_name i dt)
      (some (pymin clip_duration (get_video_duration (env.src_probe video)))) (some 0)
    if env.extract_result cmd then
      match validate_clip (env.clip_probe (clip_name i dt)) with
      | PyResult.exn => Except.error ()
      | PyResult.ok true =>
        (run_loop_clips env selected (i + 1) rest).map fun cs => (i, dt) :: cs
      | PyResult.ok false => run_loop_clips env selected (i + 1) rest
    else run_loop_clips env selected (i + 1) rest

/-- The extraction commands issued by the same loop (lines 258-263), in
order; the loop stops after the command whose validation raises. -/
def run_loop_cmds (env : Env) (selected : List (Date × FileName)) :
    Nat → List Date → List ExtractCmd
  | _, [] => []
  | i, dt :: rest =>
    let video := lookup_selected selected dt
    let cmd := extract_clip video (clip_name i dt)
      (some (pymin clip_duration (get_video_duration (env.src_probe video)))) (some 0)
    if env.extract_result cmd then
      match validate_clip (env.clip_probe (clip_name i dt)) with
      | PyResult.exn => [cmd]
      | PyResult.ok true => cmd :: run_loop_cmds env selected (i + 1) rest
      | PyResult.ok false => cmd :: run_loop_cmds env selected (i + 1) rest
    else cmd :: run_loop_cmds env selected (i + 1) rest

/-- Scan, group, select, sort, then extract+validate: the clip list that
survives (`clip_paths`), or the exception that escaped on the way. -/
def pipeline_clips (env : Env) : Except Unit (List (Nat × Date)) :=
  match group_by_date (get_video_files env.files) with
  | Except.error e => Except.error e
  | Except.ok grouped =>
    let selected := select_one_per_day env.choiceIdx grouped
    run_loop_clips env selected 0 (sortDates (selected.map Prod.fst))

/-- The extraction commands issued over the whole run. -/
def pipeline_cmds (env : Env) : List ExtractCmd :=
  match group_by_date (get_video_files env.files) with
  | Except.error _ => []
  | Except.ok grouped =>
    let selected := select_one_per_day env.choiceIdx grouped
    run_loop_cmds env selected 0 (sortDates (selected.map Prod.fst))

/-- How one `main` run ended (the early returns and final branches of
lines 206-287). -/
inductive MainResult where
  | noTools
  | noFiles
  | noClips
  | concatFailed (clips : List (Nat × Date))
  | success (clips : List (Nat × Date))

/-- Observable trace of one `main` run: how it ended (`Except.error` =
an exception escaped `main`), the extraction commands issued, the clip list
handed to `concatenate_videos` (`none` = never invoked), and whether the
output file was produced. -/
structure RunTrace where
  result : Except Unit MainResult
  extracts : List ExtractCmd
  concat_input : Option (List (Nat × Date))
  output_written : Bool

/-- `main` (lines 206-287): preflight tool check, scan, empty-scan early
return, group/select/sort/extract/validate, zero-survivors early return,
then concatenation. -/
def main_run (env : Env) : RunTrace :=
  if !env.tools_ok then ⟨Except.ok MainResult.noTools, [], none, false⟩
  else if (get_video_files env.files).isEmpty then
    ⟨Except.ok MainResult.noFiles, [], none, false⟩
  else
    match pipeline_clips env with
    | Except.error e => ⟨Except.error e, pipeline_cmds env, none, false⟩
    | Except.ok clips =>
      if clips.isEmpty then
        ⟨Except.ok MainResult.noClips, pipeline_cmds env, none, false⟩
      else
        match (concatenate_videos env.concat_write_ok env.concat_tool).result with
        | PyResult.ok true =>
          ⟨Except.ok (MainResult.success clips), pipeline_cmds env, some clips, true⟩
        | PyResult.ok false =>
          ⟨Except.ok (MainResult.concatFailed clips), pipeline_cmds env, some clips, false⟩
        | PyResult.exn =>
          ⟨Except.error (), pipeline_cmds env, some clips, false⟩

/-- Probe output of a healthy extracted clip. -/
def goodProbe : ProbeOutcome :=
  ProbeOutcome.parsed
    ⟨[⟨some CodecType.video⟩, ⟨some CodecType.audio⟩], DurationField.value (mkRat 7 5)⟩

/-- A run over two dated files and one stray file, every subprocess
succeeding. -/
def envA : Env :=
  ⟨[("2024-01-03_c-main.mp4".toList), ("2024-01-01_a-main.mp4".toList), ("notes.txt".toList)],
    true, fun _ => 0, fun _ => SrcProbe.ok 2, fun _ => true, fun _ => goodProbe, true,
    ToolRun.ok⟩

/-- A run over one dated file whose extraction fails, so no clip survives. -/
def envB : Env :=
  ⟨[("2024-01-01_a-main.mp4".toList)], true, fun _ => 0, fun _ => SrcProbe.ok 2,
    fun _ => false, fun _ => goodProbe, true, ToolRun.ok⟩

/-- A probe result with a video stream but no audio stream and no duration
field. -/
def probeNoAudio : ProbeData := ⟨[⟨some CodecType.video⟩], DurationField.absent⟩

example : parse_date_from_filename ("2024-01-15_ab-main.mp4".toList) =
    ParseOutcome.date ⟨2024, 1, 15⟩ := by decide

example : parse_date_from_filename ("notes.txt".toList) = ParseOutcome.noDate := by decide

example : parse_date_from_filename ("2024-02-30_x.mp4".toList) = ParseOutcome.valueError := by
  decide

example : parse_date_from_filename ("2024-01-01_a.MP4".toList) = ParseOutcome.noDate := by decide

example : parse_date_from_filename ("2024-01-01_a.mp4\n".toList) =
    ParseOutcome.date ⟨2024, 1, 1⟩ := by decide

theorem digitChar_isDigit {k : Nat} (h : k < 10) : (digitChar k).isDigit = true := by
  interval_cases k <;> decide

theorem digitVal_digitChar {k : Nat} (h : k < 10) : digitVal (digitChar k) = k := by
  interval_cases k <;> decide

theorem toNum4_render {y : Nat} (h : y < 10000) :
    toNum4 (digitChar (y / 1000 % 10)) (digitChar (y / 100 % 10)) (digitChar (y / 10 % 10))
      (digitChar (y % 10)) = y := by
  unfold toNum4
  rw [digitVal_digitChar (Nat.mod_lt _ (by omega)), digitVal_digitChar (Nat.mod_lt _ (by omega)),
    digitVal_digitChar (Nat.mod_lt _ (by omega)), digitVal_digitChar (Nat.mod_lt _ (by omega))]
  omega

theorem toNum2_render {m : Nat} (h : m < 100) :
    toNum2 (digitChar (m / 10 % 10)) (digitChar (m % 10)) = m := by
  unfold toNum2
  rw [digitVal_digitChar (Nat.mod_lt _ (by omega)), digitVal_digitChar (Nat.mod_lt _ (by omega))]
  omega

theorem endsWith_iff (pat cs : List Char) : endsWith pat cs = true ↔ pat <:+ cs := by
  unfold endsWith
  constructor
  · intro h
    have he : pat = cs.drop (cs.length - pat.length) := by simpa using h
    rw [he]
    exact List.drop_suffix _ _
  · rintro ⟨t, rfl⟩
    have hl : (t ++ pat).length - pat.length = t.length := by
      simp [List.length_append]
    rw [hl, List.drop_left]
    exact beq_self_eq_true pat

theorem tailMatches_append {mid : List Char} (h : mid.contains '\n' = false) :
    tailMatches (mid ++ ['.', 'm', 'p', '4']) = true := by
  apply Bool.or_eq_true_iff.mpr
  left
  apply Bool.and_eq_true_iff.mpr
  constructor
  · exact (endsWith_iff _ _).mpr ⟨mid, rfl⟩
  · have hl : (mid ++ ['.', 'm', 'p', '4']).length - 4 = mid.length := by
      simp [List.length_append]
    rw [hl, List.take_left]
    simpa using h

theorem daysInMonth_le (y m : Nat) : daysInMonth y m ≤ 31 := by
  unfold daysInMonth
  split <;> (try split) <;> omega

theorem validDate_bounds {y m d : Nat} (h : validDate y m d = true) :
    1 ≤ y ∧ y ≤ 9999 ∧ 1 ≤ m ∧ m ≤ 12 ∧ 1 ≤ d ∧ d ≤ 31 := by
  unfold validDate at h
  simp only [Bool.and_eq_true, decide_eq_true_eq] at h
  have := daysInMonth_le y m
  omega

theorem re_match_render {y m d : Nat} (mid : List Char) (hv : validDate y m d = true)
    (hm : mid.contains '\n' = false) :
    re_match (renderDate y m d ++ '_' :: (mid ++ ['.', 'm', 'p', '4'])) = some (y, m, d) := by
  obtain ⟨hy1, hy2, hm1, hm2, hd1, hd2⟩ := validDate_bounds hv
  have e : renderDate y m d ++ '_' :: (mid ++ ['.', 'm', 'p', '4']) =
      digitChar (y / 1000 % 10) :: digitChar (y / 100 % 10) :: digitChar (y / 10 % 10) ::
        digitChar (y % 10) :: '-' :: digitChar (m / 10 % 10) :: digitChar (m % 10) :: '-' ::
        digitChar (d / 10 % 10) :: digitChar (d % 10) :: '_' ::
        (mid ++ ['.', 'm', 'p', '4']) := by
    simp [renderDate, render4, render2]
  rw [e]
  have g1 := digitChar_isDigit (show y / 1000 % 10 < 10 by omega)
  have g2 := digitChar_isDigit (show y / 100 % 10 < 10 by omega)
  have g3 := digitChar_isDigit (show y / 10 % 10 < 10 by omega)
  have g4 := digitChar_isDigit (show y % 10 < 10 by omega)
  have g5 := digitChar_isDigit (show m / 10 % 10 < 10 by omega)
  have g6 := digitChar_isDigit (show m % 10 < 10 by omega)
  have g7 := digitChar_isDigit (show d / 10 % 10 < 10 by omega)
  have g8 := digitChar_isDigit (show d % 10 < 10 by omega)
  have gt := tailMatches_append hm
  simp only [re_match, g1, g2, g3, g4, g5, g6, g7, g8, gt, Bool.and_true, Bool.true_and,
    beq_self_eq_true, if_true, reduceIte]
  rw [toNum4_render (show y < 10000 by omega), toNum2_render (show m < 100 by omega),
    toNum2_render (show d < 100 by omega)]

/-- C2, as stated, is false: the claim demands that every name not matching
the `YYYY-MM-DD_<anything>.<video-extension>` pattern yield "no date" as a
normal result with no error, but `2024-02-30_x.mp4` embeds no calendar date
(February has no 30th day) and `parse_date_from_filename` lets the
`ValueError` from `datetime.strptime` escape instead of returning `None`. -/
theorem parse_date_claim_counterexample :
    spec_pattern_date ("2024-02-30_x.mp4".toList) = none ∧
      parse_date_from_filename ("2024-02-30_x.mp4".toList) ≠ ParseOutcome.noDate ∧
      parse_date_from_filename ("2024-02-30_x.mp4".toList) = ParseOutcome.valueError := by
  decide

/-- C2 (amended): for every filename of the shape
`YYYY-MM-DD_<anything>.mp4` whose digit groups form a valid calendar date
(and whose middle part crosses no newline), the parser recovers exactly the
embedded date — and in general any regex-accepted name with valid date
digits parses to that date; for every name the regex rejects, it returns
"no date" as a normal result; but a name the regex accepts whose digits are
not a valid calendar date makes the parser raise `ValueError` instead of
returning "no date". -/
theorem parse_date_exact :
    (∀ y m d : Nat, ∀ mid : List Char, validDate y m d = true →
      mid.contains '\n' = false →
      parse_date_from_filename (renderDate y m d ++ '_' :: (mid ++ ['.', 'm', 'p', '4'])) =
        ParseOutcome.date ⟨y, m, d⟩) ∧
    (∀ cs : FileName, ∀ y m d : Nat, re_match cs = some (y, m, d) →
      validDate y m d = true →
      parse_date_from_filename cs = ParseOutcome.date ⟨y, m, d⟩) ∧
    (∀ cs : FileName, re_match cs = none →
      parse_date_from_filename cs = ParseOutcome.noDate) ∧
    (∀ cs : FileName, ∀ y m d : Nat, re_match cs = some (y, m, d) →
      validDate y m d = false →
      parse_date_from_filename cs = ParseOutcome.valueError) := by
  refine ⟨?_, ?_, ?_, ?_⟩
  · intro y m d mid hv hm
    unfold parse_date_from_filename
    rw [re_match_render mid hv hm]
    simp [hv]
  · intro cs y m d h hv
    unfold parse_date_from_filename
    rw [h]
    simp [hv]
  · intro cs h
    unfold parse_date_from_filename
    rw [h]
  · intro cs y m d h hv
    unfold parse_date_from_filename
    rw [h]
    simp [hv]

/-- Witness for `parse_date_exact` at concrete inputs. -/
theorem parse_date_exact_witness :
    parse_date_from_filename
        (renderDate 2024 1 15 ++ '_' :: ("ab-main".toList ++ ['.', 'm', 'p', '4'])) =
      ParseOutcome.date ⟨2024, 1, 15⟩ ∧
    parse_date_from_filename ("2023-06-09_w.mp4".toList) = ParseOutcome.date ⟨2023, 6, 9⟩ ∧
    parse_date_from_filename ("notes.txt".toList) = ParseOutcome.noDate ∧
    parse_date_from_filename ("2025-13-01_q.mp4".toList) = ParseOutcome.valueError :=
  ⟨parse_date_exact.1 2024 1 15 ("ab-main".toList) (by decide) (by decide),
    parse_date_exact.2.1 ("2023-06-09_w.mp4".toList) 2023 6 9 (by decide) (by decide),
    parse_date_exact.2.2.1 ("notes.txt".toList) (by decide),
    parse_date_exact.2.2.2 ("2025-13-01_q.mp4".toList) 2025 13 1 (by decide) (by decide)⟩

theorem bucketOf_insertGroup (m : List (Date × List FileName)) (dt : Date) (f : FileName)
    (dt' : Date) :
    bucketOf (insertGroup m dt f) dt' =
      if dt' = dt then bucketOf m dt' ++ [f] else bucketOf m dt' := by
  induction m with
  | nil =>
    simp only [insertGroup, bucketOf]
    by_cases h : dt' = dt
    · subst h
      simp
    · rw [if_neg fun e => h e.symm, if_neg h]
  | cons p rest ih =>
    obtain ⟨k, fs⟩ := p
    simp only [insertGroup]
    by_cases hk : k = dt
    · subst hk
      simp only [if_pos rfl, bucketOf]
      by_cases h : dt' = k
      · subst h
        simp
      · rw [if_neg fun e => h e.symm, if_neg h, if_neg fun e => h e.symm]
    · rw [if_neg hk]
      simp only [bucketOf]
      by_cases h : k = dt'
      · subst h
        rw [if_neg hk]
        simp
      · rw [if_neg h, if_neg h, ih]

theorem group_aux_ok_bucket (files : List FileName) :
    ∀ acc m, group_aux acc files = Except.ok m →
      ∀ dt, bucketOf m dt =
        bucketOf acc dt ++
          files.filter (fun f => parse_date_from_filename f == ParseOutcome.date dt) := by
  induction files with
  | nil =>
    intro acc m h dt
    simp only [group_aux, Except.ok.injEq] at h
    subst h
    simp
  | cons f rest ih =>
    intro acc m h dt
    simp only [group_aux] at h
    cases hp : parse_date_from_filename f with
    | date dt0 =>
      rw [hp] at h
      have hb := ih (insertGroup acc dt0 f) m h dt
      rw [hb, bucketOf_insertGroup]
      by_cases he : dt = dt0
      · subst he
        simp [List.filter_cons, hp, List.append_assoc]
      · have hbe : (ParseOutcome.date dt0 == ParseOutcome.date dt) = false := by
          apply beq_eq_false_iff_ne.mpr
          intro e
          cases e
          exact he rfl
        simp [List.filter_cons, hp, hbe, he]
    | noDate =>
      rw [hp] at h
      have hb := ih acc m h dt
      rw [hb]
      simp [List.filter_cons, hp]
    | valueError =>
      rw [hp] at h
      cases h

theorem insertGroup_keys (m : List (Date × List FileName)) (dt : Date) (f : FileName) :
    (insertGroup m dt f).map Prod.fst =
      if dt ∈ m.map Prod.fst then m.map Prod.fst else m.map Prod.fst ++ [dt] := by
  induction m with
  | nil => simp [insertGroup]
  | cons p rest ih =>
    obtain ⟨k, fs⟩ := p
    by_cases hk : k = dt
    · subst hk
      simp [insertGroup]
    · have hne : dt ≠ k := fun e => hk e.symm
      simp only [insertGroup, if_neg hk, List.map_cons, ih, List.mem_cons, hne, false_or]
      by_cases hm : dt ∈ rest.map Prod.fst
      · simp [hm]
      · simp [hm]

theorem insertGroup_keys_nodup {m : List (Date × List FileName)} {dt : Date} {f : FileName}
    (h : (m.map Prod.fst).Nodup) : ((insertGroup m dt f).map Prod.fst).Nodup := by
  rw [insertGroup_keys]
  by_cases hm : dt ∈ m.map Prod.fst
  · simpa [hm] using h
  · simp [hm, List.nodup_append, h]

theorem group_aux_keys_nodup (files : List FileName) :
    ∀ acc m, group_aux acc files = Except.ok m → (acc.map Prod.fst).Nodup →
      (m.map Prod.fst).Nodup := by
  induction files with
  | nil =>
    intro acc m h hn
    simp only [group_aux, Except.ok.injEq] at h
    subst h
    exact hn
  | cons f rest ih =>
    intro acc m h hn
    simp only [group_aux] at h
    cases hp : parse_date_from_filename f <;> rw [hp] at h
    · exact ih _ m h (insertGroup_keys_nodup hn)
    · exact ih _ m h hn
    · cases h

theorem group_aux_error (files : List FileName) :
    ∀ acc, (∃ f ∈ files, parse_date_from_filename f = ParseOutcome.valueError) →
      group_aux acc files = Except.error () := by
  induction files with
  | nil =>
    intro acc h
    obtain ⟨f, hf, _⟩ := h
    cases hf
  | cons g rest ih =>
    intro acc h
    obtain ⟨f, hf, hpf⟩ := h
    simp only [group_aux]
    rcases List.mem_cons.mp hf with he | hm
    · subst he
      rw [hpf]
    · cases hp : parse_date_from_filename g
      · exact ih _ ⟨f, hm, hpf⟩
      · exact ih _ ⟨f, hm, hpf⟩
      · rfl

/-- C8, as stated, is false: `2024-13-01_b.mp4` yields no parsed date (there
is no month 13), so the claim demands it be dropped silently with no error;
but `group_by_date` calls the parser outside any handler, the `ValueError`
from `strptime` propagates, and the whole grouping aborts. -/
theorem group_by_date_claim_counterexample :
    parse_date_from_filename ("2024-13-01_b.mp4".toList) = ParseOutcome.valueError ∧
      group_by_date [("2024-13-01_b.mp4".toList)] = Except.error () :=
  ⟨by decide, rfl⟩

/-- C8 (amended): when grouping completes, each date's bucket holds exactly
the input files (in order) whose names parse to that date, so files whose
parse is "no date" appear in no bucket and are dropped silently; but a file
whose name matches the digit pattern without forming a valid calendar date
makes the grouping raise `ValueError` instead of dropping the file. -/
theorem group_by_date_exact :
    (∀ files m, group_by_date files = Except.ok m →
      ∀ dt, bucketOf m dt =
        files.filter (fun f => parse_date_from_filename f == ParseOutcome.date dt)) ∧
    (∀ files, (∃ f ∈ files, parse_date_from_filename f = ParseOutcome.valueError) →
      group_by_date files = Except.error ()) := by
  constructor
  · intro files m h dt
    have hb := group_aux_ok_bucket files [] m h dt
    simpa [bucketOf] using hb
  · intro files h
    exact group_aux_error files [] h

/-- Witness for `group_by_date_exact` at concrete inputs. -/
theorem group_by_date_exact_witness :
    bucketOf [(⟨2024, 1, 1⟩, [("2024-01-01_a-main.mp4".toList)])] ⟨2024, 1, 1⟩ =
      List.filter (fun f => parse_date_from_filename f == ParseOutcome.date ⟨2024, 1, 1⟩)
        [("2024-01-01_a-main.mp4".toList), ("notes.txt".toList)] ∧
    group_by_date [("2024-13-02_z.mp4".toList)] = Except.error () :=
  ⟨group_by_date_exact.1 [("2024-01-01_a-main.mp4".toList), ("notes.txt".toList)]
      [(⟨2024, 1, 1⟩, [("2024-01-01_a-main.mp4".toList)])] rfl ⟨2024, 1, 1⟩,
    group_by_date_exact.2 [("2024-13-02_z.mp4".toList)]
      ⟨("2024-13-02_z.mp4".toList), by simp, by decide⟩⟩

/-- Shared form of bucket exactness starting from the empty dict. -/
theorem group_bucket_filter {files : List FileName} {m : List (Date × List FileName)}
    (h : group_by_date files = Except.ok m) (dt : Date) :
    bucketOf m dt = files.filter (fun f => parse_date_from_filename f == ParseOutcome.date dt) := by
  have hb := group_aux_ok_bucket files [] m h dt
  simpa [bucketOf] using hb

example : get_video_files
    [("2024-01-01_a.MP4".toList), ("notes.txt".toList), ("2024-01-03_c.mp4".toList)] =
    [("2024-01-01_a.MP4".toList), ("2024-01-03_c.mp4".toList)] := by decide

theorem splitLastDot_some :
    ∀ cs pre suf, splitLastDot cs = some (pre, suf) → cs = pre ++ '.' :: suf := by
  intro cs
  induction cs with
  | nil => intro pre suf h; cases h
  | cons c rest ih =>
    intro pre suf h
    simp only [splitLastDot] at h
    cases hs : splitLastDot rest with
    | some p =>
      rw [hs] at h
      obtain ⟨p1, p2⟩ := p
      simp only [Option.some.injEq, Prod.mk.injEq] at h
      obtain ⟨h1, h2⟩ := h
      rw [← h1, ← h2, List.cons_append, ← ih p1 p2 hs]
    | none =>
      rw [hs] at h
      by_cases hc : c = '.'
      · rw [if_pos hc] at h
        simp only [Option.some.injEq, Prod.mk.injEq] at h
        obtain ⟨h1, h2⟩ := h
        rw [← h1, ← h2, hc]
        rfl
      · rw [if_neg hc] at h
        cases h

theorem path_suffix_decomp {name : FileName} (h : path_suffix name ≠ []) :
    ∃ pre suf, name = pre ++ '.' :: suf ∧ path_suffix name = '.' :: suf ∧ suf ≠ [] := by
  cases hs : splitLastDot name with
  | none =>
    exfalso
    apply h
    unfold path_suffix
    rw [hs]
  | some p =>
    obtain ⟨pre, suf⟩ := p
    have hps : path_suffix name =
        if (pre.isEmpty || suf.isEmpty) = true then [] else '.' :: suf := by
      unfold path_suffix
      rw [hs]
    by_cases he : (pre.isEmpty || suf.isEmpty) = true
    · rw [hps, if_pos he] at h
      exact absurd rfl h
    · rw [if_neg he] at hps
      refine ⟨pre, suf, splitLastDot_some name pre suf hs, hps, ?_⟩
      intro e
      subst e
      simp at he

theorem re_match_some_ends {cs : List Char} (h : re_match cs ≠ none) :
    ['.', 'm', 'p', '4'] <:+ cs ∨ ['.', 'm', 'p', '4', '\n'] <:+ cs := by
  rcases cs with _ | ⟨a1, cs⟩
  · exact absurd rfl h
  rcases cs with _ | ⟨a2, cs⟩
  · exact absurd rfl h
  rcases cs with _ | ⟨a3, cs⟩
  · exact absurd rfl h
  rcases cs with _ | ⟨a4, cs⟩
  · exact absurd rfl h
  rcases cs with _ | ⟨a5, cs⟩
  · exact absurd rfl h
  rcases cs with _ | ⟨a6, cs⟩
  · exact absurd rfl h
  rcases cs with _ | ⟨a7, cs⟩
  · exact absurd rfl h
  rcases cs with _ | ⟨a8, cs⟩
  · exact absurd rfl h
  rcases cs with _ | ⟨a9, cs⟩
  · exact absurd rfl h
  rcases cs with _ | ⟨a10, cs⟩
  · exact absurd rfl h
  rcases cs with _ | ⟨a11, rest⟩
  · exact absurd rfl h
  by_cases ht : tailMatches rest = true
  · have hsub : rest <:+ a1 :: a2 :: a3 :: a4 :: a5 :: a6 :: a7 :: a8 :: a9 :: a10 :: a11 :: rest :=
      ⟨[a1, a2, a3, a4, a5, a6, a7, a8, a9, a10, a11], rfl⟩
    unfold tailMatches at ht
    rcases Bool.or_eq_true_iff.mp ht with h1 | h2
    · exact Or.inl (((endsWith_iff _ _).mp (Bool.and_eq_true_iff.mp h1).1).trans hsub)
    · exact Or.inr (((endsWith_iff _ _).mp (Bool.and_eq_true_iff.mp h2).1).trans hsub)
  · exfalso
    apply h
    have ht' : tailMatches rest = false := by simpa using ht
    simp [re_match, ht']

theorem parse_noDate_of_not_ends {name : FileName}
    (h1 : ¬ ['.', 'm', 'p', '4'] <:+ name) (h2 : ¬ ['.', 'm', 'p', '4', '\n'] <:+ name) :
    parse_date_from_filename name = ParseOutcome.noDate := by
  cases hre : re_match name with
  | none =>
    unfold parse_date_from_filename
    rw [hre]
  | some v =>
    have hne : re_match name ≠ none := by
      rw [hre]
      exact fun e => Option.noConfusion e
    rcases re_match_some_ends hne with hs | hs
    · exact absurd hs h1
    · exact absurd hs h2

/-- C10: a file whose name has a valid `YYYY-MM-DD` date prefix but whose
extension differs from the lowercase `.mp4` only in letter case is listed by
the corpus scanner (the suffix test lowercases), yet the date parser's regex
demands a literal lowercase `.mp4`, so the parser returns "no date" and the
file lands in no bucket of any successful grouping. -/
theorem scanner_includes_parser_rejects (name : FileName) (y m d : Nat) (mid : List Char)
    (_hpfx : name = renderDate y m d ++ '_' :: mid) (_hvd : validDate y m d = true)
    (hne : path_suffix name ≠ ['.', 'm', 'p', '4'])
    (hlow : (path_suffix name).map Char.toLower = ['.', 'm', 'p', '4']) :
    (∀ files : List FileName, name ∈ files → name ∈ get_video_files files) ∧
    parse_date_from_filename name = ParseOutcome.noDate ∧
    (∀ files buckets, group_by_date files = Except.ok buckets →
      ∀ dt, name ∉ bucketOf buckets dt) := by
  have hsuf_ne_nil : path_suffix name ≠ [] := by
    intro e
    rw [e] at hlow
    simp at hlow
  obtain ⟨pre, suf, hdecomp, hps, hsufne⟩ := path_suffix_decomp hsuf_ne_nil
  have hlow2 : suf.map Char.toLower = ['m', 'p', '4'] := by
    rw [hps] at hlow
    simpa using hlow
  have hlen : suf.length = 3 := by
    have hl := congrArg List.length hlow2
    simpa using hl
  rcases suf with _ | ⟨b1, suf⟩
  · simp at hlen
  rcases suf with _ | ⟨b2, suf⟩
  · simp at hlen
  rcases suf with _ | ⟨b3, suf⟩
  · simp at hlen
  rcases suf with _ | ⟨b4, suf⟩
  case cons.cons.cons.cons => simp at hlen
  simp only [List.map_cons, List.map_nil, List.cons.injEq, and_true] at hlow2
  obtain ⟨hb1, hb2, hb3⟩ := hlow2
  have hnparse : parse_date_from_filename name = ParseOutcome.noDate := by
    apply parse_noDate_of_not_ends
    · rintro ⟨t, ht⟩
      rw [hdecomp] at ht
      have heq := (List.append_inj' ht (by simp)).2
      apply hne
      rw [hps, ← heq]
    · rintro ⟨t, ht⟩
      have hA : (t ++ ['.', 'm', 'p', '4']) ++ ['\n'] = name := by
        rw [← ht]
        simp
      have hB : name = (pre ++ ['.', b1, b2]) ++ [b3] := by
        rw [hdecomp]
        simp
      have he := congrArg List.getLast? (hA.trans hB)
      rw [List.getLast?_concat, List.getLast?_concat] at he
      simp only [Option.some.injEq] at he
      rw [← he] at hb3
      exact absurd hb3 (by decide)
  refine ⟨?_, hnparse, ?_⟩
  · intro files hf
    apply List.mem_filter.mpr
    refine ⟨hf, ?_⟩
    rw [hps]
    simp only [List.map_cons, List.map_nil]
    rw [show Char.toLower '.' = '.' from by decide, hb1, hb2, hb3]
    rfl
  · intro files buckets hg dt hmem
    rw [group_bucket_filter hg dt] at hmem
    have hp := (List.mem_filter.mp hmem).2
    rw [hnparse] at hp
    cases hp

/-- Witness for `scanner_includes_parser_rejects` at the concrete name
`2024-01-01_a.MP4`. -/
theorem scanner_includes_parser_rejects_witness :
    ("2024-01-01_a.MP4".toList) ∈ get_video_files [("2024-01-01_a.MP4".toList)] ∧
    parse_date_from_filename ("2024-01-01_a.MP4".toList) = ParseOutcome.noDate ∧
    ("2024-01-01_a.MP4".toList) ∉ bucketOf [] ⟨2024, 1, 1⟩ := by
  have h := scanner_includes_parser_rejects ("2024-01-01_a.MP4".toList) 2024 1 1
    ("a.MP4".toList) (by decide) (by decide) (by decide) (by decide)
  exact ⟨h.1 [("2024-01-01_a.MP4".toList)] (by simp), h.2.1,
    h.2.2 [("2024-01-01_a.MP4".toList)] [] rfl ⟨2024, 1, 1⟩⟩

example : (main_run envA).concat_input =
    some [(0, ⟨2024, 1, 1⟩), (1, ⟨2024, 1, 3⟩)] := by decide

example : (main_run envA).output_written = true := by decide

example : (main_run envA).extracts =
    [extract_clip ("2024-01-01_a-main.mp4".toList) (clip_name 0 ⟨2024, 1, 1⟩)
        (some (mkRat 7 5)) (some 0),
      extract_clip ("2024-01-03_c-main.mp4".toList) (clip_name 1 ⟨2024, 1, 3⟩)
        (some (mkRat 7 5)) (some 0)] := by decide

example : (main_run envB).result = Except.ok MainResult.noClips := rfl

example : (main_run envB).concat_input = none := by decide

example : pipeline_clips envB = Except.ok [] := rfl

theorem pymin_le_right (a b : Rat) : pymin a b ≤ b := by
  unfold pymin
  split
  · assumption
  · exact le_refl b

theorem pymin_le_left (a b : Rat) : pymin a b ≤ a := by
  unfold pymin
  split
  · exact le_refl a
  · exact le_of_not_le (by assumption)

/-- C9, as stated, is false: with both arguments left to their defaults the
extractor's prepared command requests 1.6 seconds (the function signature on
line 111 says `duration=1.6`), not the 1.4-second target `clip_duration`
that the pipeline driver passes explicitly. -/
theorem extract_clip_defaults_counterexample :
    ¬ ((extract_clip [] [] none none).duration = clip_duration ∧
        (extract_clip [] [] none none).start = 0) := by
  intro h
  exact absurd h.1 (by decide)

/-- C9 (amended): the Clip Extractor's target-duration parameter defaults
to 1.6 seconds (`mkRat 8 5`), not 1.4; its start-offset parameter defaults
to 0.  The 1.4-second target is what `main` passes explicitly. -/
theorem extract_clip_defaults (input_path output_path : FileName) :
    (extract_clip input_path output_path none none).duration = mkRat 8 5 ∧
    (extract_clip input_path output_path none none).start = 0 :=
  ⟨rfl, rfl⟩

/-- C7, as stated, is false on one exit path: when writing the manifest
itself raises (the write happens before the `try`/`finally`), the function
exits by exception with the `NamedTemporaryFile(delete=False)` manifest
still on disk. -/
theorem concat_manifest_claim_counterexample :
    (concatenate_videos false ToolRun.ok).manifest_deleted = false ∧
    (concatenate_videos false ToolRun.ok).result = PyResult.exn :=
  ⟨rfl, rfl⟩

/-- C7 (amended): once the manifest has been written, `concatenate_videos`
deletes it on every exit path — successful return, tool-failure return, and
exception propagation; only an exception during the manifest write itself
leaks the file. -/
theorem concat_manifest_deleted (tool : ToolRun) :
    (concatenate_videos true tool).manifest_deleted = true := by
  cases tool <;> rfl

/-- C4: the code contradicts the claim on the probe-crash path.  When the
probe subprocess exits non-zero, `validate_clip` does not return "invalid":
evaluating the `except` tuple raises `UnboundLocalError` (the local `json`
bound by the `import` on line 76 is still unset), and the exception escapes
to the caller.  Malformed probe output, reached after the import, is caught
and reported as invalid as the claim says. -/
theorem validate_clip_probe_crash :
    validate_clip ProbeOutcome.exitFailure = PyResult.exn ∧
    validate_clip ProbeOutcome.jsonError = PyResult.ok false :=
  ⟨rfl, rfl⟩

theorem run_loop_clips_spec (env : Env) (selected : List (Date × FileName)) :
    ∀ i dates clips, run_loop_clips env selected i dates = Except.ok clips →
      List.Sublist (clips.map Prod.snd) dates ∧
      ∀ c ∈ clips, validate_clip (env.clip_probe (clip_name c.1 c.2)) = PyResult.ok true := by
  intro i dates
  induction dates generalizing i with
  | nil =>
    intro clips h
    simp only [run_loop_clips, Except.ok.injEq] at h
    subst h
    exact ⟨List.nil_sublist _, by simp⟩
  | cons dt rest ih =>
    intro clips h
    simp only [run_loop_clips] at h
    split at h
    · cases hval : validate_clip (env.clip_probe (clip_name i dt)) with
      | exn =>
        rw [hval] at h
        exact Except.noConfusion h
      | ok b =>
        rw [hval] at h
        cases b with
        | true =>
          cases hrec : run_loop_clips env selected (i + 1) rest with
          | error e =>
            rw [hrec] at h
            exact Except.noConfusion h
          | ok cs =>
            rw [hrec] at h
            simp only [Except.map, Except.ok.injEq] at h
            subst h
            obtain ⟨hsub, hv⟩ := ih (i + 1) cs hrec
            constructor
            · simpa using List.Sublist.cons₂ dt hsub
            · intro c hc
              rcases List.mem_cons.mp hc with rfl | hc
              · exact hval
              · exact hv c hc
        | false =>
          obtain ⟨hsub, hv⟩ := ih (i + 1) clips h
          exact ⟨hsub.cons dt, hv⟩
    · obtain ⟨hsub, hv⟩ := ih (i + 1) clips h
      exact ⟨hsub.cons dt, hv⟩

theorem run_loop_cmds_spec (env : Env) (selected : List (Date × FileName)) :
    ∀ i dates, ∀ cmd ∈ run_loop_cmds env selected i dates,
      cmd.duration = pymin clip_duration (get_video_duration (env.src_probe cmd.input)) ∧
      cmd.start = 0 := by
  intro i dates
  induction dates generalizing i with
  | nil =>
    intro cmd h
    simp [run_loop_cmds] at h
  | cons dt rest ih =>
    intro cmd h
    simp only [run_loop_cmds] at h
    split at h
    · cases hval : validate_clip (env.clip_probe (clip_name i dt)) with
      | exn =>
        rw [hval] at h
        rcases List.mem_cons.mp h with rfl | hm
        · exact ⟨rfl, rfl⟩
        · cases hm
      | ok b =>
        rw [hval] at h
        cases b with
        | true =>
          rcases List.mem_cons.mp h with rfl | hm
          · exact ⟨rfl, rfl⟩
          · exact ih (i + 1) cmd hm
        | false =>
          rcases List.mem_cons.mp h with rfl | hm
          · exact ⟨rfl, rfl⟩
          · exact ih (i + 1) cmd hm
    · rcases List.mem_cons.mp h with rfl | hm
      · exact ⟨rfl, rfl⟩
      · exact ih (i + 1) cmd hm

theorem pipeline_cmds_spec (env : Env) :
    ∀ cmd ∈ pipeline_cmds env,
      cmd.duration = pymin clip_duration (get_video_duration (env.src_probe cmd.input)) ∧
      cmd.start = 0 := by
  intro cmd h
  unfold pipeline_cmds at h
  cases hg : group_by_date (get_video_files env.files) with
  | error e =>
    rw [hg] at h
    simp at h
  | ok grouped =>
    rw [hg] at h
    exact run_loop_cmds_spec env _ 0 _ cmd h

theorem dateLt_of_le_ne {a b : Date} (h1 : dateLe a b) (h2 : a ≠ b) : dateLt a b := by
  obtain ⟨ya, ma, da⟩ := a
  obtain ⟨yb, mb, db⟩ := b
  unfold dateLe at h1
  unfold dateLt
  dsimp only at h1 ⊢
  simp only [ne_eq, Date.mk.injEq, not_and] at h2
  omega

theorem select_keys_sublist (choiceIdx : Date → Nat) :
    ∀ g : List (Date × List FileName),
      List.Sublist ((select_one_per_day choiceIdx g).map Prod.fst) (g.map Prod.fst) := by
  intro g
  induction g with
  | nil => simp [select_one_per_day]
  | cons p rest ih =>
    obtain ⟨dt, vs⟩ := p
    cases vs with
    | nil =>
      simp only [select_one_per_day, List.map_cons]
      exact ih.cons dt
    | cons v vs =>
      simp only [select_one_per_day, List.map_cons]
      exact ih.cons₂ dt

/-- The clip list that survives the pipeline loop is strictly increasing by
date, and every surviving clip passed validation. -/
theorem pipeline_clips_spec (env : Env) {clips : List (Nat × Date)}
    (h : pipeline_clips env = Except.ok clips) :
    (clips.map Prod.snd).Pairwise dateLt ∧
    ∀ c ∈ clips, validate_clip (env.clip_probe (clip_name c.1 c.2)) = PyResult.ok true := by
  unfold pipeline_clips at h
  cases hg : group_by_date (get_video_files env.files) with
  | error e =>
    rw [hg] at h
    exact Except.noConfusion h
  | ok grouped =>
    rw [hg] at h
    have h' : run_loop_clips env (select_one_per_day env.choiceIdx grouped) 0
        (sortDates ((select_one_per_day env.choiceIdx grouped).map Prod.fst)) =
          Except.ok clips := h
    obtain ⟨hsub, hval⟩ := run_loop_clips_spec env _ 0 _ clips h'
    have hkeysnd : (grouped.map Prod.fst).Nodup :=
      group_aux_keys_nodup _ [] grouped hg (by simp)
    have hselnd : ((select_one_per_day env.choiceIdx grouped).map Prod.fst).Nodup :=
      hkeysnd.sublist (select_keys_sublist env.choiceIdx grouped)
    have hperm :=
      List.perm_insertionSort dateLe ((select_one_per_day env.choiceIdx grouped).map Prod.fst)
    have hsortnd :
        (sortDates ((select_one_per_day env.choiceIdx grouped).map Prod.fst)).Nodup :=
      hperm.symm.nodup hselnd
    have hsorted :
        List.Sorted dateLe (sortDates ((select_one_per_day env.choiceIdx grouped).map Prod.fst)) :=
      List.sorted_insertionSort dateLe _
    have hplt :
        (sortDates ((select_one_per_day env.choiceIdx grouped).map Prod.fst)).Pairwise dateLt :=
      (hsorted.and hsortnd).imp fun hab => dateLt_of_le_ne hab.1 hab.2
    exact ⟨hplt.sublist hsub, hval⟩

/-- Any clip list handed to `concatenate_videos` is strictly increasing by
date and fully validated (shared helper). -/
theorem main_concat_input_spec (env : Env) (clips : List (Nat × Date))
    (h : (main_run env).concat_input = some clips) :
    (clips.map Prod.snd).Pairwise dateLt ∧
    ∀ c ∈ clips, validate_clip (env.clip_probe (clip_name c.1 c.2)) = PyResult.ok true := by
  unfold main_run at h
  split at h
  · simp at h
  split at h
  · simp at h
  split at h
  · simp at h
  · rename_i clips' hpc
    split at h
    · simp at h
    · split at h
      · simp only [Option.some.injEq] at h
        subst h
        exact pipeline_clips_spec env hpc
      · simp only [Option.some.injEq] at h
        subst h
        exact pipeline_clips_spec env hpc
      · simp only [Option.some.injEq] at h
        subst h
        exact pipeline_clips_spec env hpc

/-- C1: whenever a run hands a clip list to the Concatenator (in particular
whenever it produces an output), the dates of those clips are strictly
increasing — sorted ascending with no duplicate dates — and every clip in
the list passed validation. -/
theorem main_concat_input_invariant (env : Env) (clips : List (Nat × Date))
    (h : (main_run env).concat_input = some clips) :
    (clips.map Prod.snd).Pairwise dateLt ∧
    ∀ c ∈ clips, validate_clip (env.clip_probe (clip_name c.1 c.2)) = PyResult.ok true :=
  main_concat_input_spec env clips h

/-- Witness for `main_concat_input_invariant` on the concrete run `envA`. -/
theorem main_concat_input_invariant_witness :
    (([(0, (⟨2024, 1, 1⟩ : Date)), (1, ⟨2024, 1, 3⟩)].map Prod.snd).Pairwise dateLt) ∧
    ∀ c ∈ [((0 : Nat), (⟨2024, 1, 1⟩ : Date)), ((1 : Nat), ⟨2024, 1, 3⟩)],
      validate_clip (envA.clip_probe (clip_name c.1 c.2)) = PyResult.ok true :=
  main_concat_input_invariant envA [(0, ⟨2024, 1, 1⟩), (1, ⟨2024, 1, 3⟩)] (by decide)

/-- C5: when the run reaches the extraction stage (tools present, scan
non-empty) and the loop completes with an empty list of surviving clip
paths, `main` returns early reporting failure ("No clips were successfully
extracted!"), never invokes the Concatenator, and writes no output file. -/
theorem main_no_surviving_clips (env : Env) (h1 : env.tools_ok = true)
    (h2 : (get_video_files env.files).isEmpty = false)
    (h3 : pipeline_clips env = Except.ok []) :
    (main_run env).result = Except.ok MainResult.noClips ∧
    (main_run env).concat_input = none ∧
    (main_run env).output_written = false := by
  simp [main_run, h1, h2, h3]

/-- Witness for `main_no_surviving_clips` on the concrete run `envB`. -/
theorem main_no_surviving_clips_witness :
    (main_run envB).result = Except.ok MainResult.noClips ∧
    (main_run envB).concat_input = none ∧
    (main_run envB).output_written = false :=
  main_no_surviving_clips envB rfl (by decide) rfl

/-- C6: every extraction command a run actually issues requests exactly
`min(clip_duration, probed source duration)` seconds starting at offset 0,
and therefore never requests more than the duration probe reported for the
source. -/
theorem extract_requested_duration (env : Env) :
    ∀ cmd ∈ (main_run env).extracts,
      cmd.duration = pymin clip_duration (get_video_duration (env.src_probe cmd.input)) ∧
      cmd.duration ≤ get_video_duration (env.src_probe cmd.input) ∧
      cmd.start = 0 := by
  intro cmd hc
  have hmem : cmd ∈ pipeline_cmds env ∨ cmd ∈ ([] : List ExtractCmd) := by
    unfold main_run at hc
    split at hc
    · exact Or.inr hc
    split at hc
    · exact Or.inr hc
    split at hc
    · exact Or.inl hc
    · split at hc
      · exact Or.inl hc
      · split at hc
        · exact Or.inl hc
        · exact Or.inl hc
        · exact Or.inl hc
  rcases hmem with hm | hm
  · obtain ⟨hd, hs⟩ := pipeline_cmds_spec env cmd hm
    refine ⟨hd, ?_, hs⟩
    rw [hd]
    exact pymin_le_right _ _
  · cases hm

/-- Witness for `extract_requested_duration` on the first command issued by
the concrete run `envA`. -/
theorem extract_requested_duration_witness :
    (extract_clip ("2024-01-01_a-main.mp4".toList) (clip_name 0 ⟨2024, 1, 1⟩)
        (some (mkRat 7 5)) (some 0)).duration =
      pymin clip_duration
        (get_video_duration (envA.src_probe
          (extract_clip ("2024-01-01_a-main.mp4".toList) (clip_name 0 ⟨2024, 1, 1⟩)
            (some (mkRat 7 5)) (some 0)).input)) ∧
    (extract_clip ("2024-01-01_a-main.mp4".toList) (clip_name 0 ⟨2024, 1, 1⟩)
        (some (mkRat 7 5)) (some 0)).duration ≤
      get_video_duration (envA.src_probe
        (extract_clip ("2024-01-01_a-main.mp4".toList) (clip_name 0 ⟨2024, 1, 1⟩)
          (some (mkRat 7 5)) (some 0)).input) ∧
    (extract_clip ("2024-01-01_a-main.mp4".toList) (clip_name 0 ⟨2024, 1, 1⟩)
        (some (mkRat 7 5)) (some 0)).start = 0 :=
  extract_requested_duration envA
    (extract_clip ("2024-01-01_a-main.mp4".toList) (clip_name 0 ⟨2024, 1, 1⟩)
      (some (mkRat 7 5)) (some 0)) (by decide)

/-- C3: over well-formed probe output (a duration field the float parser
rejects counts as malformed probe output, the case the code reports as
"could not validate"), the validator classifies a clip invalid exactly when
the probe shows no video stream, or no audio stream, or a duration that is
absent or below the 0.5-second threshold; and a clip classified invalid is
never part of the list handed to the Concatenator. -/
theorem validate_clip_invalid_iff :
    (∀ data : ProbeData, data.duration ≠ DurationField.malformed →
      (validate_clip (ProbeOutcome.parsed data) = PyResult.ok false ↔
        (hasVideoStream data = false ∨ hasAudioStream data = false ∨
          data.duration = DurationField.absent ∨
          ∃ q, data.duration = DurationField.value q ∧ q < mkRat 1 2))) ∧
    (∀ env clips, (main_run env).concat_input = some clips →
      ∀ c ∈ clips, validate_clip (env.clip_probe (clip_name c.1 c.2)) = PyResult.ok true) := by
  constructor
  · intro data hmal
    obtain ⟨streams, dur⟩ := data
    cases dur with
    | malformed => exact absurd rfl hmal
    | absent =>
      simp only [validate_clip]
      cases hv : hasVideoStream ⟨streams, DurationField.absent⟩ <;>
        cases ha : hasAudioStream ⟨streams, DurationField.absent⟩ <;>
          simp [hv, ha]
    | value q =>
      simp only [validate_clip]
      cases hv : hasVideoStream ⟨streams, DurationField.value q⟩ <;>
        cases ha : hasAudioStream ⟨streams, DurationField.value q⟩ <;>
          by_cases hq : q < mkRat 1 2 <;>
            simp [hv, ha, hq]
  · intro env clips h c hc
    exact (main_concat_input_spec env clips h).2 c hc

/-- Witness for `validate_clip_invalid_iff`: a clip with no audio stream
and no duration field, and the concrete run `envA`. -/
theorem validate_clip_invalid_iff_witness :
    (validate_clip (ProbeOutcome.parsed probeNoAudio) = PyResult.ok false ↔
      (hasVideoStream probeNoAudio = false ∨ hasAudioStream probeNoAudio = false ∨
        probeNoAudio.duration = DurationField.absent ∨
        ∃ q, probeNoAudio.duration = DurationField.value q ∧ q < mkRat 1 2)) ∧
    ∀ c ∈ [((0 : Nat), (⟨2024, 1, 1⟩ : Date)), ((1 : Nat), ⟨2024, 1, 3⟩)],
      validate_clip (envA.clip_probe (clip_name c.1 c.2)) = PyResult.ok true :=
  ⟨validate_clip_invalid_iff.1 probeNoAudio (by decide),
    validate_clip_invalid_iff.2 envA [(0, ⟨2024, 1, 1⟩), (1, ⟨2024, 1, 3⟩)] (by decide)⟩
